import Mathlib

/-!
Verification of `validators.py` (oditorium/django-validators).

Shallow embedding of the validator / normaliser / cleaner pipeline.
Python strings are modelled as `List Char`; Python values flowing through
the pipeline (strings, `None`, booleans, integers, dates) are modelled by
the sum type `PyVal`.  Character-class predicates (`str.isdigit`,
`str.isalpha`, `str.isalnum`, `str.isspace`) and `str.upper` follow
Python's Unicode semantics; they are modelled exactly on the code points
below U+0100 (Basic Latin and Latin-1) and additionally on U+0178 and
U+039C (images of Latin-1 letters under `str.upper`) and on U+01F0 and
U+030C: `ǰ` uppercases, by Python's full case mapping, to the
two-character sequence `J` + combining caron, and the combining caron is
not alphanumeric — which makes the passport normaliser's storage
transform non-idempotent.  Above the modelled range the predicates are
`false` and `str.upper` is the identity.
-/

namespace Validators

/-- Python strings, modelled as lists of characters. -/
abbrev Str := List Char

/-- Python values that flow through the pipeline: strings, `None`,
booleans, integers and `datetime.date` values (a date is modelled by its
proleptic ordinal, as an integer, which respects date ordering). -/
inductive PyVal where
  | vstr (s : Str)
  | vnone
  | vbool (b : Bool)
  | vint (n : Int)
  | vdate (ordinal : Int)
  deriving DecidableEq, Repr

/-- Python truthiness for the modelled values: `None`, `False`, `0` and
the empty string are falsy. -/
def PyVal.truthy : PyVal → Bool
  | .vstr s => !s.isEmpty
  | .vnone => false
  | .vbool b => b
  | .vint n => n != 0
  | .vdate _ => true

/-- Python `str()` conversion for the modelled values.  Integers render in
decimal, booleans as `True`/`False`, `None` as `None`.  (The rendering of
date values is not exercised by any claim; it is modelled as the empty
string.) -/
def pyStr : PyVal → Str
  | .vstr s => s
  | .vnone => "None".toList
  | .vbool true => "True".toList
  | .vbool false => "False".toList
  | .vint n => (toString n).toList
  | .vdate _ => []

/-- Python `str.isdigit`, on the code points below U+0100: the ASCII
digits `0`-`9` together with the superscripts `¹` (U+00B9), `²` (U+00B2)
and `³` (U+00B3). -/
def pyIsDigit (c : Char) : Bool :=
  (48 ≤ c.toNat && c.toNat ≤ 57) || c.toNat == 178 || c.toNat == 179 || c.toNat == 185

/-- Python `str.isalpha`, on the code points below U+0100: the ASCII
letters, `ª` `µ` `º`, and the Latin-1 letters U+00C0-U+00D6, U+00D8-U+00F6,
U+00F8-U+00FF (`×` and `÷` are not letters); additionally the code
points `Ÿ` (U+0178) and `Μ` (U+039C), the images of `ÿ` and `µ` under
`str.upper`, and `ǰ` (U+01F0, a lowercase letter with no precomposed
uppercase).  The combining caron U+030C, the second character of
`'ǰ'.upper()`, has Unicode category Mn and is NOT a letter: it is
correctly rejected here. -/
def pyIsAlpha (c : Char) : Bool :=
  (65 ≤ c.toNat && c.toNat ≤ 90) || (97 ≤ c.toNat && c.toNat ≤ 122) ||
  c.toNat == 170 || c.toNat == 181 || c.toNat == 186 ||
  (192 ≤ c.toNat && c.toNat ≤ 214) || (216 ≤ c.toNat && c.toNat ≤ 246) ||
  (248 ≤ c.toNat && c.toNat ≤ 255) ||
  c.toNat == 0x178 || c.toNat == 0x39C || c.toNat == 0x1F0

/-- Python `str.isalnum` is `isalpha or isdecimal or isdigit or
isnumeric`; below U+0100 the only extra numeric characters are the vulgar
fractions `¼` `½` `¾` (U+00BC-U+00BE). -/
def pyIsAlnum (c : Char) : Bool :=
  pyIsAlpha c || pyIsDigit c || (188 ≤ c.toNat && c.toNat ≤ 190)

/-- Python `str.isspace`, on the code points below U+0100: tab-to-carriage
return (U+0009-U+000D), the separators U+001C-U+001F, space, next line
U+0085 and no-break space U+00A0. -/
def pyIsSpace (c : Char) : Bool :=
  (9 ≤ c.toNat && c.toNat ≤ 13) || (28 ≤ c.toNat && c.toNat ≤ 31) ||
  c.toNat == 32 || c.toNat == 133 || c.toNat == 160

/-- The uppercase table of Python `str.upper` for the modelled code
points where it is not the identity: the ASCII lowercase letters, `µ`
(which maps to Greek capital Mu U+039C), `ß` (which expands to `SS`), the
Latin-1 lowercase letters U+00E0-U+00F6 and U+00F8-U+00FE (mapped down by
32), `ÿ` (which maps to `Ÿ` U+0178), and `ǰ` (U+01F0, which expands by
the Unicode FULL case mapping to `J` followed by the combining caron
U+030C — an expansion that leaves the alphanumeric class). -/
def upperMap : List (Char × Str) :=
  [('a', ['A']), ('b', ['B']), ('c', ['C']), ('d', ['D']), ('e', ['E']),
   ('f', ['F']), ('g', ['G']), ('h', ['H']), ('i', ['I']), ('j', ['J']),
   ('k', ['K']), ('l', ['L']), ('m', ['M']), ('n', ['N']), ('o', ['O']),
   ('p', ['P']), ('q', ['Q']), ('r', ['R']), ('s', ['S']), ('t', ['T']),
   ('u', ['U']), ('v', ['V']), ('w', ['W']), ('x', ['X']), ('y', ['Y']),
   ('z', ['Z']),
   ('µ', ['Μ']), ('ß', ['S', 'S']),
   ('à', ['À']), ('á', ['Á']), ('â', ['Â']), ('ã', ['Ã']), ('ä', ['Ä']),
   ('å', ['Å']), ('æ', ['Æ']), ('ç', ['Ç']), ('è', ['È']), ('é', ['É']),
   ('ê', ['Ê']), ('ë', ['Ë']), ('ì', ['Ì']), ('í', ['Í']), ('î', ['Î']),
   ('ï', ['Ï']), ('ð', ['Ð']), ('ñ', ['Ñ']), ('ò', ['Ò']), ('ó', ['Ó']),
   ('ô', ['Ô']), ('õ', ['Õ']), ('ö', ['Ö']), ('ø', ['Ø']), ('ù', ['Ù']),
   ('ú', ['Ú']), ('û', ['Û']), ('ü', ['Ü']), ('ý', ['Ý']), ('þ', ['Þ']),
   ('ÿ', ['Ÿ']),
   ('ǰ', ['J', Char.ofNat 0x30C])]

/-- `str.upper` on a single character (a character may uppercase to more
than one character, e.g. `ß` to `SS`). -/
def pyUpperChar (c : Char) : Str :=
  (upperMap.lookup c).getD [c]

/-- Python `str.upper`. -/
def pyUpper (s : Str) : Str :=
  s.flatMap pyUpperChar

/-! ## The character filter (`_remove_other_chars`) -/

/-- `_remove_other_chars.__call__`: `if text: text = str(text); text =
''.join([s for s in filter(is_valid_func, text)])`, then `return text`.
Falsy input (`None`, `False`, the empty string, `0`) is returned
unchanged; truthy input is converted with `str()` and filtered. -/
def _remove_other_chars (p : Char → Bool) (text : PyVal) : PyVal :=
  if text.truthy then .vstr ((pyStr text).filter p) else text

/-- The string-level core of `_remove_other_chars`, as the normaliser
`_inp` overrides use it (they receive an already-`str()`-converted value,
on which the truthiness guard is just an emptiness test). -/
def strFilter (p : Char → Bool) (t : Str) : Str :=
  if t.isEmpty then t else t.filter p

/-- `_remove_non_digit_chars = _remove_other_chars(str.isdigit)`, at the
string level. -/
def _remove_non_digit_chars (t : Str) : Str := strFilter pyIsDigit t

/-- `_remove_non_alpha_chars = _remove_other_chars(str.isalpha)`, at the
string level. -/
def _remove_non_alpha_chars (t : Str) : Str := strFilter pyIsAlpha t

/-- `_remove_non_alnum_chars = _remove_other_chars(str.isalnum)`, at the
string level. -/
def _remove_non_alnum_chars (t : Str) : Str := strFilter pyIsAlnum t

/-! ## Trimming (`str.strip` / `lstrip` / `rstrip`) -/

/-- Python `str.lstrip()` with no argument: drop leading whitespace. -/
def pyLStrip (s : Str) : Str := s.dropWhile pyIsSpace

/-- Python `str.rstrip()` with no argument: drop trailing whitespace. -/
def pyRStrip (s : Str) : Str := (s.reverse.dropWhile pyIsSpace).reverse

/-- Python `str.strip()` with no argument: drop whitespace on both
sides. -/
def pyStrip (s : Str) : Str := pyLStrip (pyRStrip s)

/-! ## The normaliser catalog -/

/-- The four construction-time attributes of the base `Normaliser` class:
`remove` (characters to delete), `strip`, `lstrip`, `rstrip`. -/
structure NormCfg where
  remove : Str
  strip : Bool
  lstrip : Bool
  rstrip : Bool
  deriving DecidableEq, Repr

/-- The class-level defaults of `Normaliser`: `remove = ''`,
`strip = True`, `lstrip = False`, `rstrip = False`. -/
def NormCfg.default : NormCfg := ⟨[], true, false, false⟩

/-- `text.replace(r, "")` for a single character `r`: remove every
occurrence of `r`. -/
def pyReplaceAll (t : Str) (r : Char) : Str := t.filter (fun c => c != r)

/-- The `for r in remove` loop of `Normaliser._inp`. -/
def removeChars (rm : Str) (t : Str) : Str := rm.foldl pyReplaceAll t

/-- The trimming tail of `Normaliser._inp`: `strip`, then `lstrip`, then
`rstrip`, each applied only when its flag is set. -/
def applyTrims (cfg : NormCfg) (t : Str) : Str :=
  let t := if cfg.strip then pyStrip t else t
  let t := if cfg.lstrip then pyLStrip t else t
  let t := if cfg.rstrip then pyRStrip t else t
  t

/-- `Normaliser._inp`: remove each character of `remove`, then apply the
configured trims. -/
def Normaliser._inp (cfg : NormCfg) (t : Str) : Str :=
  applyTrims cfg (removeChars cfg.remove t)

/-- The concrete normaliser classes.  `base cfg` is the configurable base
`Normaliser`; the others are the subclasses that override `_inp` and/or
`_outp` (`MobNormaliser` inherits everything from `PhoneNormaliser`). -/
inductive NormVariant where
  | base (cfg : NormCfg)
  | numeric
  | alpha
  | alnum
  | phone
  | mob
  | passport
  | idcard
  | postcode
  | cpf
  | cnpj
  deriving DecidableEq, Repr

/-- The per-class `_inp` storage transforms: the base class removes and
trims; `NumericNormaliser` (and every digit-based subclass) keeps digits
only; `AlphaNormaliser` keeps letters; `AlnumNormaliser` keeps
alphanumerics; `PassportNormaliser` keeps alphanumerics and uppercases. -/
def NormVariant._inp : NormVariant → Str → Str
  | .base cfg, t => Normaliser._inp cfg t
  | .numeric, t => _remove_non_digit_chars t
  | .alpha, t => _remove_non_alpha_chars t
  | .alnum, t => _remove_non_alnum_chars t
  | .phone, t => _remove_non_digit_chars t
  | .mob, t => _remove_non_digit_chars t
  | .passport, t => pyUpper (_remove_non_alnum_chars t)
  | .idcard, t => _remove_non_digit_chars t
  | .postcode, t => _remove_non_digit_chars t
  | .cpf, t => _remove_non_digit_chars t
  | .cnpj, t => _remove_non_digit_chars t

/-- `Normaliser.inp`: falsy input is replaced by the empty string, the
result is `str()`-converted, and `_inp` is applied. -/
def NormVariant.inp (v : NormVariant) (data : PyVal) : Str :=
  v._inp (if data.truthy then pyStr data else [])

/-- Python slice `t[a:b]` (for `a ≤ b`; both ends clamped to the string
length, as in Python). -/
def slice (t : Str) (a b : Nat) : Str := (t.drop a).take (b - a)

/-- The per-class `_outp` display transforms, exactly as in the source:
each fixed-length format first checks the length of its (already
normalised) argument and returns it unchanged on a mismatch. -/
def NormVariant._outp : NormVariant → Str → Str
  | .base _, t => t
  | .numeric, t => t
  | .alpha, t => t
  | .alnum, t => t
  | .phone, t =>
      if t.length = 10 ∨ t.length = 11 then
        '(' :: slice t 0 2 ++ ')' :: ' ' :: slice t 2 6 ++ ' ' :: t.drop 6
      else t
  | .mob, t =>
      if t.length = 10 ∨ t.length = 11 then
        '(' :: slice t 0 2 ++ ')' :: ' ' :: slice t 2 6 ++ ' ' :: t.drop 6
      else t
  | .passport, t =>
      if t.length = 8 then
        slice t 0 2 ++ ' ' :: slice t 2 5 ++ ' ' :: slice t 5 8
      else t
  | .idcard, t =>
      if t.length = 9 then
        slice t 0 4 ++ '.' :: slice t 4 8 ++ '-' :: slice t 8 9
      else t
  | .postcode, t =>
      if t.length = 8 then slice t 0 5 ++ '-' :: slice t 5 8 else t
  | .cpf, t =>
      if t.length = 11 then
        slice t 0 3 ++ '.' :: slice t 3 6 ++ '.' :: slice t 6 9 ++ '-' :: slice t 9 11
      else t
  | .cnpj, t =>
      if t.length = 14 then
        slice t 0 2 ++ '.' :: slice t 2 5 ++ '.' :: slice t 5 8 ++
          '/' :: slice t 8 12 ++ '-' :: slice t 12 14
      else t

/-- `Normaliser.outp`: falsy input is replaced by the empty string, the
result is `str()`-converted, passed through `inp`, and then through the
class `_outp`. -/
def NormVariant.outp (v : NormVariant) (data : PyVal) : Str :=
  v._outp (v.inp (.vstr (if data.truthy then pyStr data else [])))

/-- The expected display lengths of the fixed-length formats (empty for
the formats whose display transform is the identity). -/
def expectedLens : NormVariant → List Nat
  | .phone => [10, 11]
  | .mob => [10, 11]
  | .passport => [8]
  | .idcard => [9]
  | .postcode => [8]
  | .cpf => [11]
  | .cnpj => [14]
  | _ => []

/-- `NumericNormaliser` as a catalog entry. -/
def NumericNormaliser : NormVariant := .numeric

/-- `AlphaNormaliser` as a catalog entry. -/
def AlphaNormaliser : NormVariant := .alpha

/-- `AlnumNormaliser` as a catalog entry. -/
def AlnumNormaliser : NormVariant := .alnum

/-- `PhoneNormaliser` as a catalog entry. -/
def PhoneNormaliser : NormVariant := .phone

/-- `MobNormaliser` as a catalog entry. -/
def MobNormaliser : NormVariant := .mob

/-- `PassportNormaliser` as a catalog entry. -/
def PassportNormaliser : NormVariant := .passport

/-- `IDCardNormaliser` as a catalog entry. -/
def IDCardNormaliser : NormVariant := .idcard

/-- `PostCodeNormaliser` as a catalog entry. -/
def PostCodeNormaliser : NormVariant := .postcode

/-- `CpfNormaliser` as a catalog entry. -/
def CpfNormaliser : NormVariant := .cpf

/-- `CnpjNormaliser` as a catalog entry. -/
def CnpjNormaliser : NormVariant := .cnpj

/-! ## The date normaliser -/

/-- `type(dt) == date` for the modelled values. -/
def isDate : PyVal → Bool
  | .vdate _ => true
  | _ => false

/-- `DateNormaliser.inp` is inherited from `NullNormaliser`: it passes its
argument through unchanged (no falsy coercion, no `str()`). -/
def DateNormaliser.inp (data : PyVal) : PyVal := data

/-- `DateNormaliser.outp`.  The locale table `DATE_INPUT_FORMATS` and
`date.strftime` are external (spec §1 treats them as injected): the table
is the parameter `fmts` and the formatter the parameter `strf`, applied to
the second table entry exactly as the source applies `date_formats[1]`.
If the table is empty or the input is not a date, the input is returned
unchanged. -/
def DateNormaliser.outp (fmts : List Str) (strf : Int → Str → Str)
    (dt : PyVal) : PyVal :=
  if 0 < fmts.length ∧ isDate dt then
    .vstr (strf (match dt with | .vdate d => d | _ => 0) (fmts.getD 1 []))
  else dt

/-! ## A regular-expression engine for the validator patterns

The source validates with `re.fullmatch(pattern, text)`.  The patterns
used are built from character-class ranges, `.`, concatenation, bounded
repetition and Kleene star; they are embedded in the small AST below and
matched with Brzozowski derivatives.  As in Python (without `re.DOTALL`),
`.` matches every character except the newline. -/

/-- Regular expressions over the constructs the source patterns use. -/
inductive Regex where
  | rfail
  | eps
  | anyc
  | cls (ranges : List (Char × Char))
  | cat (a b : Regex)
  | alt (a b : Regex)
  | star (a : Regex)
  deriving DecidableEq, Repr

/-- Does the regex accept the empty string? -/
def Regex.nullable : Regex → Bool
  | .rfail => false
  | .eps => true
  | .anyc => false
  | .cls _ => false
  | .cat a b => a.nullable && b.nullable
  | .alt a b => a.nullable || b.nullable
  | .star _ => true

/-- Character-class membership: inside one of the ranges. -/
def inRanges (rs : List (Char × Char)) (c : Char) : Bool :=
  rs.any (fun r => r.1 ≤ c && c ≤ r.2)

/-- Concatenation, simplifying the unit and zero on the left. -/
def Regex.cat1 : Regex → Regex → Regex
  | .rfail, _ => .rfail
  | .eps, b => b
  | a, b => .cat a b

/-- Alternation, simplifying zeros. -/
def Regex.alt1 : Regex → Regex → Regex
  | .rfail, b => b
  | a, .rfail => a
  | a, b => .alt a b

/-- Brzozowski derivative with respect to one character. -/
def Regex.deriv : Regex → Char → Regex
  | .rfail, _ => .rfail
  | .eps, _ => .rfail
  | .anyc, c => if c = '\n' then .rfail else .eps
  | .cls rs, c => if inRanges rs c then .eps else .rfail
  | .cat a b, c =>
      if a.nullable then .alt1 (.cat1 (a.deriv c) b) (b.deriv c)
      else .cat1 (a.deriv c) b
  | .alt a b, c => .alt1 (a.deriv c) (b.deriv c)
  | .star a, c => .cat1 (a.deriv c) (.star a)

/-- `re.fullmatch(r, s)` is truthy: the ENTIRE string matches. -/
def fullmatch (r : Regex) (s : Str) : Bool :=
  (s.foldl Regex.deriv r).nullable

/-- `{n}`: the regex repeated exactly `n` times. -/
def repN (r : Regex) : Nat → Regex
  | 0 => .eps
  | n + 1 => .cat r (repN r n)

/-- The ASCII-digit class `[0-9]`. -/
def digitCls : Regex := .cls [('0', '9')]

/-- The ASCII-uppercase class `[A-Z]`. -/
def upperCls : Regex := .cls [('A', 'Z')]

/-! ## The validator catalog -/

/-- The base `Validator`: everything validates `True`. -/
def Validator (_ : PyVal) : Bool := true

/-- `RegexValidator.__call__`: `re.fullmatch(regex, text)` on the given
pattern. -/
def RegexValidator (regex : Regex) (text : Str) : Bool :=
  fullmatch regex text

/-- The class-level default pattern of `RegexValidator`: `r'.*'`. -/
def defaultRegex : Regex := .star .anyc

/-- `NumericValidator`: pattern `[0-9]*`. -/
def NumericValidator (text : Str) : Bool :=
  RegexValidator (.star digitCls) text

/-- `AlphaValidator`: pattern `[a-zA-Z]*`. -/
def AlphaValidator (text : Str) : Bool :=
  RegexValidator (.star (.cls [('a', 'z'), ('A', 'Z')])) text

/-- `AlnumValidator`: pattern `[a-zA-Z0-9]*`. -/
def AlnumValidator (text : Str) : Bool :=
  RegexValidator (.star (.cls [('a', 'z'), ('A', 'Z'), ('0', '9')])) text

/-- `PhoneValidator`: pattern `[0-9]{10,11}` (the bounded repetition
`{10,11}` is the alternation of ten and eleven repetitions). -/
def PhoneValidator (text : Str) : Bool :=
  RegexValidator (.alt (repN digitCls 10) (repN digitCls 11)) text

/-- `PassportValidator`: pattern `[A-Z]{2}[0-9]{6}`. -/
def PassportValidator (text : Str) : Bool :=
  RegexValidator (.cat (repN upperCls 2) (repN digitCls 6)) text

/-- `IDCardValidator`: pattern `[0-9]{9}`. -/
def IDCardValidator (text : Str) : Bool :=
  RegexValidator (repN digitCls 9) text

/-- `PostCodeValidator`: pattern `[0-9]{8}`. -/
def PostCodeValidator (text : Str) : Bool :=
  RegexValidator (repN digitCls 8) text

/-! ## The checksum validators (TaxId11 / CPF and TaxId14 / CNPJ)

`CpfValidator` and `CnpjValidator` delegate to `validate_cpf` /
`validate_cnpj` of the external `brazilnum` package, which is not part of
this repository; the two functions are modelled from the spec (§4.2,
§4.5). -/

/-- An ASCII digit `0`-`9` (the spec's standing is-digit predicate, used
by the spec's "strips all non-digit characters" step). -/
def isAsciiDigit (c : Char) : Bool := 48 ≤ c.toNat && c.toNat ≤ 57

/-- The numeric value of an ASCII digit. -/
def digitVal (c : Char) : Nat := c.toNat - 48

/-- Weighted digit sum with descending weights: the first digit carries
weight `w`, the next `w - 1`, and so on. -/
def weightedSumDesc : Nat → Str → Nat
  | _, [] => 0
  | w, c :: t => w * digitVal c + weightedSumDesc (w - 1) t

/-- Modelled from the spec (§4.5): the check digit of a digit prefix under
the descending weight sequence `n+1, n, ..., 2` (`n` the prefix length):
`sum = Σ d[i]*w[i] mod 11`; the check digit is `0` when `sum < 2` and
`11 - sum` otherwise. -/
def checkDigitDesc (pre : Str) : Nat :=
  let s := weightedSumDesc (pre.length + 1) pre % 11
  if s < 2 then 0 else 11 - s

/-- Weighted digit sum with the weights cycling `2..9` from the RIGHT end
of the prefix (the rightmost digit carries weight 2): for a 12-digit
prefix this is the sequence `5,4,3,2,9,8,7,6,5,4,3,2`, for a 13-digit one
`6,5,4,3,2,9,8,7,6,5,4,3,2`. -/
def weightedSumCycle (ds : Str) : Nat :=
  (ds.reverse.enum).foldl (fun acc jc => acc + (2 + jc.1 % 8) * digitVal jc.2) 0

/-- Modelled from the spec (§4.2 TaxId14, §4.5): the check digit of a
digit prefix under the cyclic weight family `2..9`, with the same
`sum < 2 → 0` boundary rule. -/
def checkDigitCycle (pre : Str) : Nat :=
  let s := weightedSumCycle pre % 11
  if s < 2 then 0 else 11 - s

/-- Modelled from the spec: `brazilnum.cpf.validate_cpf` (§4.2 TaxId11,
§4.5).  Strip all non-digit characters; if the digit string's length is
not exactly 11, the identifier is invalid; otherwise it is valid iff the
check digits of the first 9 and first 10 digits (descending weights) equal
the 10th and 11th digits. -/
def validate_cpf (s : Str) : Bool :=
  let cpf := s.filter isAsciiDigit
  (cpf.length == 11) &&
    (checkDigitDesc (cpf.take 9) == digitVal (cpf.getD 9 ' ')) &&
    (checkDigitDesc (cpf.take 10) == digitVal (cpf.getD 10 ' '))

/-- Modelled from the spec: `brazilnum.cnpj.validate_cnpj` (§4.2 TaxId14,
§4.5).  Same shape as `validate_cpf` over a 14-digit identifier, with the
check digits of the first 12 and first 13 digits computed under the
cyclic `2..9` weight sequence. -/
def validate_cnpj (s : Str) : Bool :=
  let cnpj := s.filter isAsciiDigit
  (cnpj.length == 14) &&
    (checkDigitCycle (cnpj.take 12) == digitVal (cnpj.getD 12 ' ')) &&
    (checkDigitCycle (cnpj.take 13) == digitVal (cnpj.getD 13 ' '))

/-- The 14-digit check exactly as claim C3 words it: the check digits of
the first 12 and first 13 digits computed with TaxId11's DESCENDING weight
sequence `n+1 .. 2`.  This follows the claim's words, not the source, and
is compared against `validate_cnpj`. -/
def validate_cnpj_descWeights (s : Str) : Bool :=
  let cnpj := s.filter isAsciiDigit
  (cnpj.length == 14) &&
    (checkDigitDesc (cnpj.take 12) == digitVal (cnpj.getD 12 ' ')) &&
    (checkDigitDesc (cnpj.take 13) == digitVal (cnpj.getD 13 ' '))

/-- `CpfValidator.__call__`: falsy input is invalid (`validate_cpf` falls
over with `""`); otherwise delegate to `validate_cpf`. -/
def CpfValidator (param : PyVal) : Bool :=
  if !param.truthy then false
  else validate_cpf (pyStr param)

/-- `CnpjValidator.__call__`: falsy input is invalid; otherwise delegate
to `validate_cnpj`. -/
def CnpjValidator (param : PyVal) : Bool :=
  if !param.truthy then false
  else validate_cnpj (pyStr param)

/-- `DobValidator.__call__`: `if date < today: return True` — the `else`
branch evaluates the bare expression `False` without returning it, so the
call implicitly returns Python `None` on that path.  `today` is the
caller-supplied current date. -/
def DobValidator (today : Int) (date : Int) : PyVal :=
  if date < today then .vbool true else .vnone

/-! ## The Cleaner -/

/-- A `Cleaner`: a validator, a normaliser and the configured exception
message.  `execute` always feeds the validator the normalised STRING, so
the validator component is modelled at string level; the raised exception
is modelled by the `Except.error` branch carrying the message. -/
structure Cleaner where
  validator : Str → Bool
  normaliser : NormVariant
  exception_msg : Str

/-- `Cleaner.execute`: normalise with the normaliser's input transform,
return the normalised text if the validator approves it, otherwise raise
the configured exception with the configured message. -/
def Cleaner.execute (c : Cleaner) (text : PyVal) : Except Str Str :=
  let t := c.normaliser.inp text
  if c.validator t then .ok t else .error c.exception_msg

/-- `Cleaner.ft`: format with the normaliser's `outp`; independent of
validation and never failing. -/
def Cleaner.ft (c : Cleaner) (text : PyVal) : Str :=
  c.normaliser.outp text

/-- The CPF cleaner of the test suite:
`Cleaner(CpfValidator(), CpfNormaliser(), "xyz")`. -/
def clean_cpf : Cleaner :=
  ⟨fun s => CpfValidator (.vstr s), CpfNormaliser, "xyz".toList⟩

/-- The numeric cleaner of the test suite:
`Cleaner(NumericValidator(), NumericNormaliser(), "xyz")`. -/
def clean_numeric : Cleaner :=
  ⟨NumericValidator, NumericNormaliser, "xyz".toList⟩

/-! # Lemmas

## The character filter -/

theorem strFilter_eq (p : Char → Bool) (t : Str) : strFilter p t = t.filter p := by
  cases t <;> simp [strFilter]

theorem filter_idem (p : Char → Bool) (t : Str) :
    (t.filter p).filter p = t.filter p :=
  List.filter_eq_self.mpr (fun _ h => List.of_mem_filter h)

/-! ## `str.upper` -/

theorem lookup_mem {α β : Type} [BEq α] [LawfulBEq α] {l : List (α × β)} {c : α}
    {s : β} (h : List.lookup c l = some s) : (c, s) ∈ l := by
  induction l with
  | nil => simp [List.lookup] at h
  | cons e t ih =>
      obtain ⟨k, v⟩ := e
      rw [List.lookup] at h
      cases hck : c == k with
      | true =>
          rw [hck] at h
          cases h
          rw [eq_of_beq hck]
          exact List.mem_cons_self _ _
      | false =>
          rw [hck] at h
          exact List.mem_cons_of_mem _ (ih h)

/-- Every character produced by the uppercase table is a fixed point of
uppercasing. -/
theorem upperMap_fix :
    ∀ e ∈ upperMap, ∀ d ∈ e.2, pyUpperChar d = [d] := by
  decide

/-- For table entries whose KEY lies below U+0100 every produced
character is alphanumeric.  (This fails for the whole table: the `ǰ`
entry produces the combining caron U+030C, which is not alphanumeric.) -/
theorem upperMap_alnum_latin1 :
    ∀ e ∈ upperMap, e.1.toNat < 256 → ∀ d ∈ e.2, pyIsAlnum d = true := by
  decide

theorem pyUpperChar_fix {c d : Char} (h : d ∈ pyUpperChar c) :
    pyUpperChar d = [d] := by
  unfold pyUpperChar at h
  cases hl : List.lookup c upperMap with
  | none =>
      rw [hl] at h
      simp at h
      subst h
      unfold pyUpperChar
      rw [hl]
      rfl
  | some s =>
      rw [hl] at h
      exact upperMap_fix _ (lookup_mem hl) d h

/-- Uppercasing preserves the alphanumeric class only on the code points
below U+0100: `ǰ` (U+01F0) is alphanumeric but its uppercase image
contains the non-alphanumeric combining caron. -/
theorem pyUpperChar_alnum {c d : Char} (hb : c.toNat < 256)
    (hc : pyIsAlnum c = true) (h : d ∈ pyUpperChar c) : pyIsAlnum d = true := by
  unfold pyUpperChar at h
  cases hl : List.lookup c upperMap with
  | none =>
      rw [hl] at h
      simp at h
      subst h
      exact hc
  | some s =>
      rw [hl] at h
      exact upperMap_alnum_latin1 _ (lookup_mem hl) hb d h

theorem flatMap_id_of_fix {f : Char → Str} {l : Str}
    (h : ∀ d ∈ l, f d = [d]) : l.flatMap f = l := by
  induction l with
  | nil => rfl
  | cons a t ih =>
      rw [List.flatMap_cons, h a (List.mem_cons_self a t),
        ih (fun d hd => h d (List.mem_cons_of_mem a hd))]
      rfl

theorem pyUpper_fix {t : Str} (h : ∀ d ∈ t, pyUpperChar d = [d]) :
    pyUpper t = t :=
  flatMap_id_of_fix h

theorem pyUpper_idem (s : Str) : pyUpper (pyUpper s) = pyUpper s := by
  apply pyUpper_fix
  intro d hd
  rw [pyUpper, List.mem_flatMap] at hd
  obtain ⟨c, _, hdc⟩ := hd
  exact pyUpperChar_fix hdc

theorem pyUpper_alnum {s : Str} (hb : ∀ c ∈ s, c.toNat < 256)
    (h : ∀ c ∈ s, pyIsAlnum c = true) :
    ∀ d ∈ pyUpper s, pyIsAlnum d = true := by
  intro d hd
  rw [pyUpper, List.mem_flatMap] at hd
  obtain ⟨c, hc, hdc⟩ := hd
  exact pyUpperChar_alnum (hb c hc) (h c hc) hdc

/-! ## Trimming -/

theorem pyRStrip_eq (s : Str) : pyRStrip s = s.rdropWhile pyIsSpace := rfl

theorem pyLStrip_idem (s : Str) : pyLStrip (pyLStrip s) = pyLStrip s :=
  List.dropWhile_idempotent pyIsSpace s

theorem pyRStrip_idem (s : Str) : pyRStrip (pyRStrip s) = pyRStrip s := by
  rw [pyRStrip_eq, pyRStrip_eq]
  exact List.rdropWhile_idempotent pyIsSpace s

theorem dropWhile_eq_self_of_head? {p : Char → Bool} {l : Str}
    (h : ∀ a ∈ l.head?, p a = false) : l.dropWhile p = l := by
  cases l with
  | nil => rfl
  | cons a t =>
      rw [List.dropWhile_cons, h a (by simp)]
      simp

theorem head?_of_dropWhile_eq_self {p : Char → Bool} {l : Str}
    (h : l.dropWhile p = l) : ∀ a ∈ l.head?, p a = false := by
  intro a ha
  cases l with
  | nil => simp at ha
  | cons b t =>
      have hba : b = a := by simpa using ha
      rw [List.dropWhile_cons] at h
      by_cases hpb : p b
      · exfalso
        rw [if_pos hpb] at h
        have hle : (t.dropWhile p).length ≤ t.length :=
          (List.dropWhile_suffix p).sublist.length_le
        rw [h] at hle
        simp at hle
      · rw [← hba]
        simpa using hpb

theorem pyRStrip_eq_self_of_getLast? {l : Str}
    (h : ∀ a ∈ l.getLast?, pyIsSpace a = false) : pyRStrip l = l := by
  rw [pyRStrip, List.reverse_eq_iff]
  apply dropWhile_eq_self_of_head?
  intro a ha
  rw [List.head?_reverse] at ha
  exact h a ha

theorem getLast?_of_pyRStrip_eq_self {l : Str} (h : pyRStrip l = l) :
    ∀ a ∈ l.getLast?, pyIsSpace a = false := by
  intro a ha
  rw [pyRStrip, List.reverse_eq_iff] at h
  rw [← List.head?_reverse] at ha
  exact head?_of_dropWhile_eq_self h a ha

/-- If a string has no trailing whitespace, neither has its `lstrip`. -/
theorem pyRStrip_pyLStrip {y : Str} (h : pyRStrip y = y) :
    pyRStrip (pyLStrip y) = pyLStrip y := by
  apply pyRStrip_eq_self_of_getLast?
  intro a ha
  obtain ⟨u, hu⟩ : pyLStrip y <:+ y := List.dropWhile_suffix pyIsSpace
  have ha2 : a ∈ (u ++ pyLStrip y).getLast? :=
    List.mem_getLast?_append_of_mem_getLast? ha
  rw [hu] at ha2
  exact getLast?_of_pyRStrip_eq_self h a ha2

/-- If a string has no leading whitespace, neither has its `rstrip`. -/
theorem pyLStrip_pyRStrip {y : Str} (h : pyLStrip y = y) :
    pyLStrip (pyRStrip y) = pyRStrip y := by
  apply dropWhile_eq_self_of_head?
  intro a ha
  obtain ⟨u, hu⟩ : List.dropWhile pyIsSpace y.reverse <:+ y.reverse :=
    List.dropWhile_suffix pyIsSpace
  have hy : pyRStrip y ++ u.reverse = y := by
    have h2 := congrArg List.reverse hu
    rw [List.reverse_append, List.reverse_reverse] at h2
    exact h2
  have ha2 : a ∈ (pyRStrip y ++ u.reverse).head? :=
    List.mem_head?_append_of_mem_head? ha
  rw [hy] at ha2
  exact head?_of_dropWhile_eq_self h a ha2

theorem pyStrip_idem (s : Str) : pyStrip (pyStrip s) = pyStrip s := by
  rw [pyStrip, pyStrip, pyRStrip_pyLStrip (pyRStrip_idem s), pyLStrip_idem]

/-! ## Character removal (`Normaliser._inp`) -/

theorem removeChars_eq_filter (rm : Str) (t : Str) :
    removeChars rm t = t.filter (fun c => !rm.contains c) := by
  induction rm generalizing t with
  | nil => simp [removeChars]
  | cons r rs ih =>
      rw [removeChars, List.foldl_cons]
      have h1 : List.foldl pyReplaceAll (pyReplaceAll t r) rs =
          removeChars rs (pyReplaceAll t r) := rfl
      rw [h1, ih, pyReplaceAll, List.filter_filter]
      apply List.filter_congr
      intro c _
      simp only [bne, List.contains_cons, Bool.not_or]
      exact Bool.and_comm _ _

theorem removeChars_empty (rm : Str) : removeChars rm [] = [] := by
  rw [removeChars_eq_filter]
  rfl

theorem pyLStrip_pyStrip (t : Str) : pyLStrip (pyStrip t) = pyStrip t := by
  rw [pyStrip]
  exact pyLStrip_idem (pyRStrip t)

theorem pyRStrip_pyStrip (t : Str) : pyRStrip (pyStrip t) = pyStrip t := by
  rw [pyStrip]
  exact pyRStrip_pyLStrip (pyRStrip_idem t)

/-- Membership is preserved by each trimming operation. -/
theorem mem_of_mem_applyTrims {cfg : NormCfg} {t : Str} {x : Char}
    (h : x ∈ applyTrims cfg t) : x ∈ t := by
  have hl : ∀ s : Str, x ∈ pyLStrip s → x ∈ s := fun s hx =>
    ((List.dropWhile_suffix pyIsSpace).sublist).mem hx
  have hr : ∀ s : Str, x ∈ pyRStrip s → x ∈ s := by
    intro s hx
    rw [pyRStrip, List.mem_reverse] at hx
    have h2 := ((List.dropWhile_suffix pyIsSpace).sublist).mem hx
    rwa [List.mem_reverse] at h2
  have hs : ∀ s : Str, x ∈ pyStrip s → x ∈ s := fun s hx => hr s (hl _ hx)
  obtain ⟨rm, st, ls, rs⟩ := cfg
  cases st <;> cases ls <;> cases rs
  · exact h
  · exact hr t h
  · exact hl t h
  · exact hl t (hr _ h)
  · exact hs t h
  · exact hs t (hr _ h)
  · exact hs t (hl _ h)
  · exact hs t (hl _ (hr _ h))

theorem applyTrims_empty (cfg : NormCfg) : applyTrims cfg [] = [] := by
  obtain ⟨rm, st, ls, rs⟩ := cfg
  cases st <;> cases ls <;> cases rs <;> rfl

theorem applyTrims_idem (cfg : NormCfg) (t : Str) :
    applyTrims cfg (applyTrims cfg t) = applyTrims cfg t := by
  obtain ⟨rm, st, ls, rs⟩ := cfg
  cases st <;> cases ls <;> cases rs
  · rfl
  · show pyRStrip (pyRStrip t) = pyRStrip t
    exact pyRStrip_idem t
  · show pyLStrip (pyLStrip t) = pyLStrip t
    exact pyLStrip_idem t
  · show pyRStrip (pyLStrip (pyRStrip (pyLStrip t))) = pyRStrip (pyLStrip t)
    rw [pyLStrip_pyRStrip (pyLStrip_idem t), pyRStrip_idem]
  · show pyStrip (pyStrip t) = pyStrip t
    exact pyStrip_idem t
  · show pyRStrip (pyStrip (pyRStrip (pyStrip t))) = pyRStrip (pyStrip t)
    rw [pyRStrip_pyStrip t, pyStrip_idem t, pyRStrip_pyStrip t]
  · show pyLStrip (pyStrip (pyLStrip (pyStrip t))) = pyLStrip (pyStrip t)
    rw [pyLStrip_pyStrip t, pyStrip_idem t, pyLStrip_pyStrip t]
  · show pyRStrip (pyLStrip (pyStrip (pyRStrip (pyLStrip (pyStrip t))))) =
      pyRStrip (pyLStrip (pyStrip t))
    rw [pyLStrip_pyStrip t, pyRStrip_pyStrip t, pyStrip_idem t, pyLStrip_pyStrip t,
      pyRStrip_pyStrip t]

/-! ## Normaliser-level lemmas -/

theorem Normaliser_inp_empty (cfg : NormCfg) : Normaliser._inp cfg [] = [] := by
  rw [Normaliser._inp, removeChars_empty, applyTrims_empty]

theorem Normaliser_inp_idem (cfg : NormCfg) (t : Str) :
    Normaliser._inp cfg (Normaliser._inp cfg t) = Normaliser._inp cfg t := by
  rw [Normaliser._inp, Normaliser._inp]
  have h1 : removeChars cfg.remove (applyTrims cfg (removeChars cfg.remove t)) =
      applyTrims cfg (removeChars cfg.remove t) := by
    rw [removeChars_eq_filter]
    apply List.filter_eq_self.mpr
    intro x hx
    have hx2 : x ∈ removeChars cfg.remove t := mem_of_mem_applyTrims hx
    rw [removeChars_eq_filter] at hx2
    exact @List.of_mem_filter _ _ x t hx2
  rw [h1, applyTrims_idem]

theorem mem_strFilter {p : Char → Bool} {t : Str} {c : Char}
    (h : c ∈ strFilter p t) : p c = true := by
  rw [strFilter_eq] at h
  exact List.of_mem_filter h

theorem mem_of_mem_strFilter {p : Char → Bool} {t : Str} {c : Char}
    (h : c ∈ strFilter p t) : c ∈ t := by
  rw [strFilter_eq] at h
  exact List.mem_of_mem_filter h

theorem mem_coerce {x : PyVal} {c : Char}
    (h : c ∈ (if x.truthy then pyStr x else [])) : c ∈ pyStr x := by
  split at h
  · exact h
  · simp at h

theorem strFilter_idem (p : Char → Bool) (t : Str) :
    strFilter p (strFilter p t) = strFilter p t := by
  rw [strFilter_eq, strFilter_eq, filter_idem]

theorem variant_inp_empty (v : NormVariant) : v._inp [] = [] := by
  cases v with
  | base cfg => exact Normaliser_inp_empty cfg
  | _ => rfl

/-- Storage idempotence for every variant other than the passport one
(whose uppercasing step can leave the alphanumeric class, see
`passport_inp_idem`). -/
theorem variant_inp_idem (v : NormVariant) (hv : v ≠ .passport) (t : Str) :
    v._inp (v._inp t) = v._inp t := by
  cases v with
  | base cfg => exact Normaliser_inp_idem cfg t
  | passport => exact absurd rfl hv
  | alpha => exact strFilter_idem pyIsAlpha t
  | alnum => exact strFilter_idem pyIsAlnum t
  | _ => exact strFilter_idem pyIsDigit t

/-- Storage idempotence of the passport normaliser, for strings of
characters below U+0100.  It FAILS beyond that range: `ǰ` (U+01F0) is
alphanumeric, survives the filter, and uppercases to `J` + combining
caron, whose combining mark the second filtering pass removes. -/
theorem passport_inp_idem {t : Str} (hb : ∀ c ∈ t, c.toNat < 256) :
    NormVariant.passport._inp (NormVariant.passport._inp t) =
      NormVariant.passport._inp t := by
  show pyUpper (_remove_non_alnum_chars (pyUpper (_remove_non_alnum_chars t))) =
    pyUpper (_remove_non_alnum_chars t)
  rw [_remove_non_alnum_chars, _remove_non_alnum_chars]
  have h1 : strFilter pyIsAlnum (pyUpper (strFilter pyIsAlnum t)) =
      pyUpper (strFilter pyIsAlnum t) := by
    rw [strFilter_eq pyIsAlnum (pyUpper (strFilter pyIsAlnum t))]
    apply List.filter_eq_self.mpr
    exact pyUpper_alnum (fun c hc => hb c (mem_of_mem_strFilter hc))
      (fun c hc => mem_strFilter hc)
  rw [h1, pyUpper_idem]

theorem inp_vstr (v : NormVariant) (s : Str) : v.inp (.vstr s) = v._inp s := by
  cases s <;> rfl

theorem outp_eq (v : NormVariant) (x : PyVal) : v.outp x = v._outp (v.inp x) := by
  rw [NormVariant.outp, inp_vstr]
  rfl

theorem inp_idem_pv (v : NormVariant) (hv : v ≠ .passport) (x : PyVal) :
    v.inp (.vstr (v.inp x)) = v.inp x := by
  rw [inp_vstr]
  exact variant_inp_idem v hv _

theorem inp_fix (v : NormVariant) (hv : v ≠ .passport) (x : PyVal) :
    v._inp (v.inp x) = v.inp x := by
  rw [NormVariant.inp]
  exact variant_inp_idem v hv _

theorem passport_inp_fix (x : PyVal) (hx : ∀ c ∈ pyStr x, c.toNat < 256) :
    NormVariant.passport._inp (NormVariant.passport.inp x) =
      NormVariant.passport.inp x := by
  rw [NormVariant.inp]
  exact passport_inp_idem (fun c hc => hx c (mem_coerce hc))

theorem passport_inp_idem_pv (x : PyVal) (hx : ∀ c ∈ pyStr x, c.toNat < 256) :
    NormVariant.passport.inp (.vstr (NormVariant.passport.inp x)) =
      NormVariant.passport.inp x := by
  rw [inp_vstr]
  exact passport_inp_fix x hx

/-! ## Slices and display recomposition -/

theorem slice_zero (t : Str) (b : Nat) : slice t 0 b = t.take b := by
  rw [slice, List.drop_zero, Nat.sub_zero]

theorem slice_append {a b c : Nat} (t : Str) (hab : a ≤ b) (hbc : b ≤ c) :
    slice t a b ++ slice t b c = slice t a c := by
  rw [slice, slice, slice]
  have hd : t.drop b = (t.drop a).drop (b - a) := by
    rw [List.drop_drop]
    congr 1
    omega
  rw [hd]
  have hc : c - a = (b - a) + (c - b) := by omega
  rw [hc, List.take_add]

theorem slice_to_end (t : Str) (a : Nat) : slice t a t.length = t.drop a := by
  rw [slice]
  apply List.take_of_length_le
  rw [List.length_drop]

theorem filter_slice {p : Char → Bool} {t : Str} (h : ∀ c ∈ t, p c = true)
    (a b : Nat) : (slice t a b).filter p = slice t a b := by
  apply List.filter_eq_self.mpr
  intro c hc
  rw [slice] at hc
  exact h c ((List.drop_sublist a t).mem ((List.take_sublist _ _).mem hc))

theorem filter_drop {p : Char → Bool} {t : Str} (h : ∀ c ∈ t, p c = true)
    (a : Nat) : (t.drop a).filter p = t.drop a := by
  apply List.filter_eq_self.mpr
  intro c hc
  exact h c ((List.drop_sublist a t).mem hc)

theorem phone_outp_inp {t : Str} (ht : ∀ c ∈ t, pyIsDigit c = true)
    (hl : t.length = 10 ∨ t.length = 11) :
    NormVariant.phone._inp (NormVariant.phone._outp t) = t := by
  have houtp : NormVariant.phone._outp t =
      '(' :: slice t 0 2 ++ ')' :: ' ' :: slice t 2 6 ++ ' ' :: t.drop 6 :=
    if_pos hl
  show _remove_non_digit_chars (NormVariant.phone._outp t) = t
  rw [houtp, _remove_non_digit_chars, strFilter_eq]
  have hp1 : pyIsDigit '(' = false := by decide
  have hp2 : pyIsDigit ')' = false := by decide
  have hp3 : pyIsDigit ' ' = false := by decide
  have e1 : (slice t 0 2).filter pyIsDigit = slice t 0 2 := filter_slice ht 0 2
  have e2 : (slice t 2 6).filter pyIsDigit = slice t 2 6 := filter_slice ht 2 6
  have e3 : (t.drop 6).filter pyIsDigit = t.drop 6 := filter_drop ht 6
  simp only [List.filter_append, List.filter_cons, hp1, hp2, hp3, e1, e2, e3,
    Bool.false_eq_true, if_false]
  rw [← slice_to_end t 6]
  rw [@slice_append 0 2 6 t (by omega) (by omega)]
  rw [@slice_append 0 6 t.length t (by omega) (by omega)]
  rw [slice_zero]
  exact List.take_of_length_le (by omega)

theorem mob_outp_inp {t : Str} (ht : ∀ c ∈ t, pyIsDigit c = true)
    (hl : t.length = 10 ∨ t.length = 11) :
    NormVariant.mob._inp (NormVariant.mob._outp t) = t :=
  phone_outp_inp ht hl

theorem postcode_outp_inp {t : Str} (ht : ∀ c ∈ t, pyIsDigit c = true)
    (hl : t.length = 8) :
    NormVariant.postcode._inp (NormVariant.postcode._outp t) = t := by
  have houtp : NormVariant.postcode._outp t =
      slice t 0 5 ++ '-' :: slice t 5 8 := if_pos hl
  show _remove_non_digit_chars (NormVariant.postcode._outp t) = t
  rw [houtp, _remove_non_digit_chars, strFilter_eq]
  have hp1 : pyIsDigit '-' = false := by decide
  have e1 : (slice t 0 5).filter pyIsDigit = slice t 0 5 := filter_slice ht 0 5
  have e2 : (slice t 5 8).filter pyIsDigit = slice t 5 8 := filter_slice ht 5 8
  simp only [List.filter_append, List.filter_cons, hp1, e1, e2,
    Bool.false_eq_true, if_false]
  rw [@slice_append 0 5 8 t (by omega) (by omega), slice_zero]
  exact List.take_of_length_le (by omega)

theorem idcard_outp_inp {t : Str} (ht : ∀ c ∈ t, pyIsDigit c = true)
    (hl : t.length = 9) :
    NormVariant.idcard._inp (NormVariant.idcard._outp t) = t := by
  have houtp : NormVariant.idcard._outp t =
      slice t 0 4 ++ '.' :: slice t 4 8 ++ '-' :: slice t 8 9 := if_pos hl
  show _remove_non_digit_chars (NormVariant.idcard._outp t) = t
  rw [houtp, _remove_non_digit_chars, strFilter_eq]
  have hp1 : pyIsDigit '.' = false := by decide
  have hp2 : pyIsDigit '-' = false := by decide
  have e1 : (slice t 0 4).filter pyIsDigit = slice t 0 4 := filter_slice ht 0 4
  have e2 : (slice t 4 8).filter pyIsDigit = slice t 4 8 := filter_slice ht 4 8
  have e3 : (slice t 8 9).filter pyIsDigit = slice t 8 9 := filter_slice ht 8 9
  simp only [List.filter_append, List.filter_cons, hp1, hp2, e1, e2, e3,
    Bool.false_eq_true, if_false]
  rw [@slice_append 0 4 8 t (by omega) (by omega)]
  rw [@slice_append 0 8 9 t (by omega) (by omega), slice_zero]
  exact List.take_of_length_le (by omega)

theorem cpf_outp_inp {t : Str} (ht : ∀ c ∈ t, pyIsDigit c = true)
    (hl : t.length = 11) :
    NormVariant.cpf._inp (NormVariant.cpf._outp t) = t := by
  have houtp : NormVariant.cpf._outp t =
      slice t 0 3 ++ '.' :: slice t 3 6 ++ '.' :: slice t 6 9 ++
        '-' :: slice t 9 11 := if_pos hl
  show _remove_non_digit_chars (NormVariant.cpf._outp t) = t
  rw [houtp, _remove_non_digit_chars, strFilter_eq]
  have hp1 : pyIsDigit '.' = false := by decide
  have hp2 : pyIsDigit '-' = false := by decide
  have e1 : (slice t 0 3).filter pyIsDigit = slice t 0 3 := filter_slice ht 0 3
  have e2 : (slice t 3 6).filter pyIsDigit = slice t 3 6 := filter_slice ht 3 6
  have e3 : (slice t 6 9).filter pyIsDigit = slice t 6 9 := filter_slice ht 6 9
  have e4 : (slice t 9 11).filter pyIsDigit = slice t 9 11 := filter_slice ht 9 11
  simp only [List.filter_append, List.filter_cons, hp1, hp2, e1, e2, e3, e4,
    Bool.false_eq_true, if_false]
  rw [@slice_append 0 3 6 t (by omega) (by omega)]
  rw [@slice_append 0 6 9 t (by omega) (by omega)]
  rw [@slice_append 0 9 11 t (by omega) (by omega), slice_zero]
  exact List.take_of_length_le (by omega)

theorem cnpj_outp_inp {t : Str} (ht : ∀ c ∈ t, pyIsDigit c = true)
    (hl : t.length = 14) :
    NormVariant.cnpj._inp (NormVariant.cnpj._outp t) = t := by
  have houtp : NormVariant.cnpj._outp t =
      slice t 0 2 ++ '.' :: slice t 2 5 ++ '.' :: slice t 5 8 ++
        '/' :: slice t 8 12 ++ '-' :: slice t 12 14 := if_pos hl
  show _remove_non_digit_chars (NormVariant.cnpj._outp t) = t
  rw [houtp, _remove_non_digit_chars, strFilter_eq]
  have hp1 : pyIsDigit '.' = false := by decide
  have hp2 : pyIsDigit '/' = false := by decide
  have hp3 : pyIsDigit '-' = false := by decide
  have e1 : (slice t 0 2).filter pyIsDigit = slice t 0 2 := filter_slice ht 0 2
  have e2 : (slice t 2 5).filter pyIsDigit = slice t 2 5 := filter_slice ht 2 5
  have e3 : (slice t 5 8).filter pyIsDigit = slice t 5 8 := filter_slice ht 5 8
  have e4 : (slice t 8 12).filter pyIsDigit = slice t 8 12 := filter_slice ht 8 12
  have e5 : (slice t 12 14).filter pyIsDigit = slice t 12 14 := filter_slice ht 12 14
  simp only [List.filter_append, List.filter_cons, hp1, hp2, hp3, e1, e2, e3, e4, e5,
    Bool.false_eq_true, if_false]
  rw [@slice_append 0 2 5 t (by omega) (by omega)]
  rw [@slice_append 0 5 8 t (by omega) (by omega)]
  rw [@slice_append 0 8 12 t (by omega) (by omega)]
  rw [@slice_append 0 12 14 t (by omega) (by omega), slice_zero]
  exact List.take_of_length_le (by omega)

theorem passport_outp_inp {t : Str} (htal : ∀ c ∈ t, pyIsAlnum c = true)
    (htup : pyUpper t = t) (hl : t.length = 8) :
    NormVariant.passport._inp (NormVariant.passport._outp t) = t := by
  have houtp : NormVariant.passport._outp t =
      slice t 0 2 ++ ' ' :: slice t 2 5 ++ ' ' :: slice t 5 8 := if_pos hl
  show pyUpper (_remove_non_alnum_chars (NormVariant.passport._outp t)) = t
  rw [houtp, _remove_non_alnum_chars, strFilter_eq]
  have hp1 : pyIsAlnum ' ' = false := by decide
  have e1 : (slice t 0 2).filter pyIsAlnum = slice t 0 2 := filter_slice htal 0 2
  have e2 : (slice t 2 5).filter pyIsAlnum = slice t 2 5 := filter_slice htal 2 5
  have e3 : (slice t 5 8).filter pyIsAlnum = slice t 5 8 := filter_slice htal 5 8
  simp only [List.filter_append, List.filter_cons, hp1, e1, e2, e3,
    Bool.false_eq_true, if_false]
  rw [@slice_append 0 2 5 t (by omega) (by omega)]
  rw [@slice_append 0 5 8 t (by omega) (by omega), slice_zero]
  rw [List.take_of_length_le (by omega)]
  exact htup

/-- Display formatting is a no-op whenever the storage-normalised string
does not have the expected display length. -/
theorem outp_noop (v : NormVariant) (hv : expectedLens v ≠ []) (x : PyVal)
    (h : (v.inp x).length ∉ expectedLens v) : v.outp x = v.inp x := by
  rw [outp_eq]
  cases v with
  | base cfg => exact absurd rfl hv
  | numeric => exact absurd rfl hv
  | alpha => exact absurd rfl hv
  | alnum => exact absurd rfl hv
  | phone => exact if_neg (by simpa [expectedLens] using h)
  | mob => exact if_neg (by simpa [expectedLens] using h)
  | passport => exact if_neg (by simpa [expectedLens] using h)
  | idcard => exact if_neg (by simpa [expectedLens] using h)
  | postcode => exact if_neg (by simpa [expectedLens] using h)
  | cpf => exact if_neg (by simpa [expectedLens] using h)
  | cnpj => exact if_neg (by simpa [expectedLens] using h)

/-- The storage-normalised string survives the display round trip when its
length matches the expected display length (variants other than
passport). -/
theorem inp_outp_core (v : NormVariant) (hv : v ≠ .passport) (x : PyVal)
    (hlen : (v.inp x).length ∈ expectedLens v) :
    v._inp (v._outp (v.inp x)) = v.inp x := by
  cases v with
  | base cfg => simp [expectedLens] at hlen
  | numeric => simp [expectedLens] at hlen
  | alpha => simp [expectedLens] at hlen
  | alnum => simp [expectedLens] at hlen
  | phone =>
      exact phone_outp_inp (fun c hc => mem_strFilter hc)
        (by simpa [expectedLens] using hlen)
  | mob =>
      exact mob_outp_inp (fun c hc => mem_strFilter hc)
        (by simpa [expectedLens] using hlen)
  | passport => exact absurd rfl hv
  | idcard =>
      exact idcard_outp_inp (fun c hc => mem_strFilter hc)
        (by simpa [expectedLens] using hlen)
  | postcode =>
      exact postcode_outp_inp (fun c hc => mem_strFilter hc)
        (by simpa [expectedLens] using hlen)
  | cpf =>
      exact cpf_outp_inp (fun c hc => mem_strFilter hc)
        (by simpa [expectedLens] using hlen)
  | cnpj =>
      exact cnpj_outp_inp (fun c hc => mem_strFilter hc)
        (by simpa [expectedLens] using hlen)

/-- The passport analogue of `inp_outp_core`, restricted to inputs whose
characters lie below U+0100 (beyond that range it fails, see
`passport_inp_idem`). -/
theorem passport_inp_outp_core (x : PyVal)
    (hx : ∀ c ∈ pyStr x, c.toNat < 256)
    (hlen : (NormVariant.passport.inp x).length ∈
      expectedLens NormVariant.passport) :
    NormVariant.passport._inp (NormVariant.passport._outp
      (NormVariant.passport.inp x)) = NormVariant.passport.inp x := by
  apply passport_outp_inp
  · apply pyUpper_alnum
    · exact fun c hc => hx c (mem_coerce (mem_of_mem_strFilter hc))
    · exact fun c hc => mem_strFilter hc
  · exact pyUpper_idem _
  · simpa [expectedLens] using hlen

/-- The display round trip: format, normalise, format again gives the
first formatting, whenever the filtered length matches (variants other
than passport). -/
theorem display_roundtrip (v : NormVariant) (hv : v ≠ .passport) (x : PyVal)
    (hlen : (v.inp x).length ∈ expectedLens v) :
    v.outp (.vstr (v.inp (.vstr (v.outp x)))) = v.outp x := by
  have hB : v.inp (.vstr (v.outp x)) = v.inp x := by
    rw [inp_vstr, outp_eq]
    exact inp_outp_core v hv x hlen
  rw [hB, outp_eq v (.vstr (v.inp x)), inp_vstr, inp_fix v hv, ← outp_eq]

/-- The passport display round trip, for inputs whose characters lie
below U+0100. -/
theorem passport_display_roundtrip (x : PyVal)
    (hx : ∀ c ∈ pyStr x, c.toNat < 256)
    (hlen : (NormVariant.passport.inp x).length ∈
      expectedLens NormVariant.passport) :
    NormVariant.passport.outp (.vstr (NormVariant.passport.inp
      (.vstr (NormVariant.passport.outp x)))) = NormVariant.passport.outp x := by
  have hB : NormVariant.passport.inp (.vstr (NormVariant.passport.outp x)) =
      NormVariant.passport.inp x := by
    rw [inp_vstr, outp_eq]
    exact passport_inp_outp_core x hx hlen
  rw [hB, outp_eq NormVariant.passport (.vstr (NormVariant.passport.inp x)),
    inp_vstr, passport_inp_fix x hx, ← outp_eq]

/-! ## Regular-expression lemmas -/

theorem fullmatch_nil (r : Regex) : fullmatch r [] = r.nullable := rfl

theorem fullmatch_cons (r : Regex) (c : Char) (s : Str) :
    fullmatch r (c :: s) = fullmatch (r.deriv c) s := rfl

theorem fullmatch_rfail (s : Str) : fullmatch .rfail s = false := by
  induction s with
  | nil => rfl
  | cons c t ih => exact ih

theorem fullmatch_alt (s : Str) : ∀ a b : Regex,
    fullmatch (.alt a b) s = (fullmatch a s || fullmatch b s) := by
  induction s with
  | nil => intro a b; rfl
  | cons c t ih =>
      intro a b
      rw [fullmatch_cons, fullmatch_cons a, fullmatch_cons b]
      show fullmatch (Regex.alt1 (a.deriv c) (b.deriv c)) t = _
      cases hda : a.deriv c <;> cases hdb : b.deriv c <;>
        simp only [Regex.alt1, fullmatch_rfail, ih, Bool.false_or, Bool.or_false]

theorem alt1_rfail_left (b : Regex) : Regex.alt1 .rfail b = b := by
  cases b <;> rfl

theorem cat1_rfail_left (b : Regex) : Regex.cat1 .rfail b = .rfail := by
  cases b <;> rfl

theorem cat1_eps_left (b : Regex) : Regex.cat1 .eps b = b := by
  cases b <;> rfl

theorem fullmatch_cat_eps (s : Str) (b : Regex) :
    fullmatch (.cat .eps b) s = fullmatch b s := by
  cases s with
  | nil =>
      rw [fullmatch_nil, fullmatch_nil]
      show (Regex.nullable .eps && b.nullable) = b.nullable
      rw [Regex.nullable]
      exact Bool.true_and _
  | cons c t =>
      rw [fullmatch_cons, fullmatch_cons]
      have h1 : (Regex.cat .eps b).deriv c = b.deriv c := by
        show Regex.alt1 (Regex.cat1 (Regex.deriv .eps c) b) (b.deriv c) = b.deriv c
        rw [show Regex.deriv .eps c = Regex.rfail from rfl, cat1_rfail_left,
          alt1_rfail_left]
      rw [h1]

theorem fullmatch_star_cls (rs : List (Char × Char)) (s : Str) :
    fullmatch (.star (.cls rs)) s = s.all (inRanges rs) := by
  induction s with
  | nil => rfl
  | cons c t ih =>
      rw [fullmatch_cons, List.all_cons]
      show fullmatch (Regex.cat1 (if inRanges rs c then .eps else .rfail)
        (.star (.cls rs))) t = _
      by_cases hc : inRanges rs c
      · rw [if_pos hc, hc]
        show fullmatch (.star (.cls rs)) t = (true && t.all (inRanges rs))
        rw [ih, Bool.true_and]
      · rw [if_neg hc]
        show fullmatch .rfail t = (inRanges rs c && t.all (inRanges rs))
        rw [fullmatch_rfail]
        cases hcc : inRanges rs c
        · rw [Bool.false_and]
        · exact absurd hcc (by simpa using hc)

theorem fullmatch_star_anyc (s : Str) :
    fullmatch (.star .anyc) s = s.all (fun c => c != '\n') := by
  induction s with
  | nil => rfl
  | cons c t ih =>
      rw [fullmatch_cons, List.all_cons]
      show fullmatch (Regex.cat1 (if c = '\n' then .rfail else .eps)
        (.star .anyc)) t = _
      by_cases hc : c = '\n'
      · rw [if_pos hc]
        show fullmatch .rfail t = _
        rw [fullmatch_rfail]
        have hcc : (c != '\n') = false := by simp [hc]
        rw [hcc, Bool.false_and]
      · rw [if_neg hc]
        show fullmatch (.star .anyc) t = _
        have hcc : (c != '\n') = true := by simp [hc]
        rw [ih, hcc, Bool.true_and]

theorem fullmatch_repN_cls (rs : List (Char × Char)) : ∀ (s : Str) (n : Nat),
    fullmatch (repN (.cls rs) n) s =
      (decide (s.length = n) && s.all (inRanges rs)) := by
  intro s
  induction s with
  | nil =>
      intro n
      cases n with
      | zero => rfl
      | succ m => rfl
  | cons c t ih =>
      intro n
      cases n with
      | zero =>
          rw [fullmatch_cons, show (repN (.cls rs) 0).deriv c = .rfail from rfl,
            fullmatch_rfail]
          simp
      | succ m =>
          rw [fullmatch_cons]
          have hd : (repN (.cls rs) (m + 1)).deriv c =
              Regex.cat1 (if inRanges rs c then Regex.eps else Regex.rfail)
                (repN (.cls rs) m) := rfl
          rw [hd]
          cases hc : inRanges rs c with
          | false =>
              rw [if_neg (by simp), cat1_rfail_left, fullmatch_rfail]
              simp [List.all_cons, hc]
          | true =>
              rw [if_pos rfl, cat1_eps_left, ih m]
              have he : decide (t.length = m) = decide ((c :: t).length = m + 1) :=
                decide_eq_decide.mpr (by simp)
              rw [List.all_cons, hc, Bool.true_and, he]

theorem cat1_repN (r b : Regex) (m : Nat) (s : Str) :
    fullmatch (Regex.cat1 (repN r m) b) s = fullmatch (.cat (repN r m) b) s := by
  cases m with
  | zero =>
      rw [show repN r 0 = Regex.eps from rfl, cat1_eps_left, fullmatch_cat_eps]
  | succ k => rfl

theorem fullmatch_cat_repN_cls (rs : List (Char × Char)) (b : Regex) :
    ∀ (s : Str) (n : Nat),
    fullmatch (.cat (repN (.cls rs) n) b) s =
      if n ≤ s.length then
        ((s.take n).all (inRanges rs) && fullmatch b (s.drop n))
      else false := by
  intro s
  induction s with
  | nil =>
      intro n
      cases n with
      | zero =>
          rw [fullmatch_nil]
          show (Regex.nullable (repN (.cls rs) 0) && b.nullable) = _
          simp [repN, Regex.nullable, fullmatch_nil]
      | succ m =>
          rw [fullmatch_nil]
          show (Regex.nullable (repN (.cls rs) (m + 1)) && b.nullable) = _
          simp [repN, Regex.nullable]
  | cons c t ih =>
      intro n
      cases n with
      | zero =>
          rw [show repN (Regex.cls rs) 0 = Regex.eps from rfl, fullmatch_cat_eps]
          simp
      | succ m =>
          rw [fullmatch_cons]
          have hd : (Regex.cat (repN (.cls rs) (m + 1)) b).deriv c =
              Regex.cat1 (Regex.cat1 (if inRanges rs c then Regex.eps else Regex.rfail)
                (repN (.cls rs) m)) b := rfl
          rw [hd]
          cases hc : inRanges rs c with
          | false =>
              rw [if_neg (by simp), cat1_rfail_left, cat1_rfail_left,
                fullmatch_rfail]
              simp [List.all_cons, hc]
          | true =>
              rw [if_pos rfl, cat1_eps_left, cat1_repN, ih m]
              simp only [List.take_succ_cons, List.drop_succ_cons, List.all_cons,
                List.length_cons, hc, Bool.true_and, Nat.add_le_add_iff_right]

/-! ## Characterisations of the concrete regex validators -/

theorem inRanges_iff (rs : List (Char × Char)) (c : Char) :
    inRanges rs c = true ↔ ∃ r ∈ rs, r.1 ≤ c ∧ c ≤ r.2 := by
  simp [inRanges, List.any_eq_true, Bool.and_eq_true, decide_eq_true_eq]

theorem NumericValidator_iff (s : Str) :
    NumericValidator s = true ↔ ∀ c ∈ s, '0' ≤ c ∧ c ≤ '9' := by
  rw [NumericValidator, RegexValidator, digitCls, fullmatch_star_cls]
  simp [List.all_eq_true, inRanges_iff]

theorem AlphaValidator_iff (s : Str) :
    AlphaValidator s = true ↔
      ∀ c ∈ s, ('a' ≤ c ∧ c ≤ 'z') ∨ ('A' ≤ c ∧ c ≤ 'Z') := by
  rw [AlphaValidator, RegexValidator, fullmatch_star_cls]
  simp [List.all_eq_true, inRanges_iff]

theorem AlnumValidator_iff (s : Str) :
    AlnumValidator s = true ↔
      ∀ c ∈ s, ('a' ≤ c ∧ c ≤ 'z') ∨ ('A' ≤ c ∧ c ≤ 'Z') ∨ ('0' ≤ c ∧ c ≤ '9') := by
  rw [AlnumValidator, RegexValidator, fullmatch_star_cls]
  simp [List.all_eq_true, inRanges_iff]

theorem defaultRegex_iff (s : Str) :
    RegexValidator defaultRegex s = true ↔ Char.ofNat 10 ∉ s := by
  rw [RegexValidator, defaultRegex, fullmatch_star_anyc]
  simp only [List.all_eq_true, bne_iff_ne]
  constructor
  · intro h hm
    exact h _ hm rfl
  · intro h c hc he
    rw [he] at hc
    exact h hc

theorem PhoneValidator_iff (s : Str) :
    PhoneValidator s = true ↔
      (s.length = 10 ∨ s.length = 11) ∧ ∀ c ∈ s, '0' ≤ c ∧ c ≤ '9' := by
  rw [PhoneValidator, RegexValidator, fullmatch_alt, digitCls]
  rw [fullmatch_repN_cls, fullmatch_repN_cls]
  simp only [Bool.or_eq_true, Bool.and_eq_true, decide_eq_true_eq,
    List.all_eq_true, inRanges_iff]
  simp only [List.mem_singleton, exists_eq_left]
  tauto

theorem IDCardValidator_iff (s : Str) :
    IDCardValidator s = true ↔ s.length = 9 ∧ ∀ c ∈ s, '0' ≤ c ∧ c ≤ '9' := by
  rw [IDCardValidator, RegexValidator, digitCls, fullmatch_repN_cls]
  simp [List.all_eq_true, inRanges_iff]

theorem PostCodeValidator_iff (s : Str) :
    PostCodeValidator s = true ↔ s.length = 8 ∧ ∀ c ∈ s, '0' ≤ c ∧ c ≤ '9' := by
  rw [PostCodeValidator, RegexValidator, digitCls, fullmatch_repN_cls]
  simp [List.all_eq_true, inRanges_iff]

theorem PassportValidator_iff (s : Str) :
    PassportValidator s = true ↔
      s.length = 8 ∧ (∀ c ∈ s.take 2, 'A' ≤ c ∧ c ≤ 'Z') ∧
        (∀ c ∈ s.drop 2, '0' ≤ c ∧ c ≤ '9') := by
  rw [PassportValidator, RegexValidator, upperCls, digitCls]
  rw [fullmatch_cat_repN_cls, fullmatch_repN_cls]
  by_cases hlen : 2 ≤ s.length
  · rw [if_pos hlen]
    simp only [Bool.and_eq_true, decide_eq_true_eq, List.all_eq_true,
      inRanges_iff, List.length_drop]
    simp only [List.mem_singleton, exists_eq_left]
    constructor
    · rintro ⟨h1, h2, h3⟩
      exact ⟨by omega, h1, h3⟩
    · rintro ⟨h1, h2, h3⟩
      exact ⟨h2, by omega, h3⟩
  · rw [if_neg hlen]
    constructor
    · intro h
      exact absurd h (by simp)
    · rintro ⟨h8, -, -⟩
      exact absurd h8 (by omega)

/-! ## Checksum and cleaner lemmas -/

theorem validate_cpf_iff (s : Str) :
    validate_cpf s = true ↔
      (s.filter isAsciiDigit).length = 11 ∧
      checkDigitDesc ((s.filter isAsciiDigit).take 9) =
        digitVal ((s.filter isAsciiDigit).getD 9 ' ') ∧
      checkDigitDesc ((s.filter isAsciiDigit).take 10) =
        digitVal ((s.filter isAsciiDigit).getD 10 ' ') := by
  rw [validate_cpf]
  simp only [Bool.and_eq_true, beq_iff_eq]
  tauto

theorem validate_cnpj_iff (s : Str) :
    validate_cnpj s = true ↔
      (s.filter isAsciiDigit).length = 14 ∧
      checkDigitCycle ((s.filter isAsciiDigit).take 12) =
        digitVal ((s.filter isAsciiDigit).getD 12 ' ') ∧
      checkDigitCycle ((s.filter isAsciiDigit).take 13) =
        digitVal ((s.filter isAsciiDigit).getD 13 ' ') := by
  rw [validate_cnpj]
  simp only [Bool.and_eq_true, beq_iff_eq]
  tauto

theorem CpfValidator_falsy {p : PyVal} (h : p.truthy = false) :
    CpfValidator p = false := by
  rw [CpfValidator, h]
  rfl

theorem CnpjValidator_falsy {p : PyVal} (h : p.truthy = false) :
    CnpjValidator p = false := by
  rw [CnpjValidator, h]
  rfl

theorem Cleaner_execute_ok {c : Cleaner} {x : PyVal}
    (h : c.validator (c.normaliser.inp x) = true) :
    c.execute x = .ok (c.normaliser.inp x) := by
  rw [Cleaner.execute, if_pos h]

theorem Cleaner_execute_error {c : Cleaner} {x : PyVal}
    (h : c.validator (c.normaliser.inp x) = false) :
    c.execute x = .error c.exception_msg := by
  rw [Cleaner.execute, if_neg (by simp [h])]

theorem Cleaner_execute_error_iff (c : Cleaner) (x : PyVal) :
    c.execute x = .error c.exception_msg ↔
      c.validator (c.normaliser.inp x) = false := by
  constructor
  · intro h
    cases hv : c.validator (c.normaliser.inp x) with
    | false => rfl
    | true =>
        rw [Cleaner_execute_ok hv] at h
        exact absurd h (by simp)
  · exact Cleaner_execute_error

theorem Cleaner_execute_msg {c : Cleaner} {x : PyVal} {e : Str}
    (h : c.execute x = .error e) : e = c.exception_msg := by
  rw [Cleaner.execute] at h
  by_cases hv : c.validator (c.normaliser.inp x) = true
  · rw [if_pos hv] at h
    exact absurd h (by simp)
  · rw [if_neg hv] at h
    cases h
    rfl

/-! # Claim theorems -/

/-- Claim C1: the TaxId11 validator (`CpfValidator`) returns false for
empty/absent (falsy) input; otherwise it strips all non-digit characters,
returns false unless exactly 11 digits remain, and accepts iff the two
check digits computed by the descending-weight modulo-11 algorithm of
§4.5 (with the `sum < 2 → 0` boundary rule) over the first 9 and first 10
digits equal the 10th and 11th digits; the spec's five test vectors
hold. -/
theorem C1_taxid11 :
    (∀ p : PyVal, p.truthy = false → CpfValidator p = false)
  ∧ (∀ s : Str, (s.filter isAsciiDigit).length ≠ 11 → validate_cpf s = false)
  ∧ (∀ s : Str, (s.filter isAsciiDigit).length = 11 →
      (validate_cpf s = true ↔
        checkDigitDesc ((s.filter isAsciiDigit).take 9) =
          digitVal ((s.filter isAsciiDigit).getD 9 ' ') ∧
        checkDigitDesc ((s.filter isAsciiDigit).take 10) =
          digitVal ((s.filter isAsciiDigit).getD 10 ' ')))
  ∧ (∀ p : PyVal, p.truthy = true →
      (CpfValidator p = true ↔ validate_cpf (pyStr p) = true))
  ∧ CpfValidator (.vstr "70600399109".toList) = true
  ∧ CpfValidator (.vstr "697.200.105-68".toList) = true
  ∧ CpfValidator (.vstr "00000128156".toList) = false
  ∧ CpfValidator (.vstr "".toList) = false
  ∧ CpfValidator .vnone = false := by
  refine ⟨fun p h => CpfValidator_falsy h, ?_, ?_, ?_,
    by decide, by decide, by decide, by decide, by decide⟩
  · intro s hne
    cases hv : validate_cpf s with
    | false => rfl
    | true => exact absurd ((validate_cpf_iff s).mp hv).1 hne
  · intro s h11
    rw [validate_cpf_iff]
    tauto
  · intro p hp
    rw [CpfValidator, hp]
    simp

/-- Witness for C1 at concrete inputs. -/
theorem C1_taxid11_witness :
    CpfValidator (PyVal.vbool false) = false
  ∧ validate_cpf ("123".toList) = false
  ∧ validate_cpf ("70600399109".toList) = true
  ∧ CpfValidator (PyVal.vstr ("00000128155".toList)) = true := by
  refine ⟨C1_taxid11.1 _ (by decide), C1_taxid11.2.1 _ (by decide), ?_, ?_⟩
  · exact (C1_taxid11.2.2.1 _ (by decide)).mpr (by decide)
  · exact (C1_taxid11.2.2.2.1 _ (by decide)).mpr (by decide)

/-- Claim C3 counterexample: the claim asserts that TaxId14 runs the
§4.5 procedure with weights descending from `n+1` to `2` (as TaxId11
does) AND that `validates("62173620000180")` is true; but under the
descending weights that identifier's check digits do not match, while the
validator (whose weights cycle 2..9) accepts it. -/
theorem C3_counterexample :
    validate_cnpj_descWeights ("62173620000180".toList) = false
  ∧ CnpjValidator (.vstr ("62173620000180".toList)) = true := by
  constructor
  · decide
  · decide

/-- Claim C3 (amended): the TaxId14 validator (`CnpjValidator`) rejects
falsy input, strips non-digits, rejects unless exactly 14 digits remain,
and accepts iff the two check digits computed by the §4.5 modulo-11 rule
with the positional weights CYCLING 2..9 from the rightmost prefix digit
(5,4,3,2,9,8,7,6,5,4,3,2 for the 12-digit prefix and
6,5,4,3,2,9,8,7,6,5,4,3,2 for the 13-digit prefix) equal the 13th and
14th digits; the test vectors hold. -/
theorem C3_taxid14 :
    (∀ p : PyVal, p.truthy = false → CnpjValidator p = false)
  ∧ (∀ s : Str, (s.filter isAsciiDigit).length ≠ 14 → validate_cnpj s = false)
  ∧ (∀ s : Str, (s.filter isAsciiDigit).length = 14 →
      (validate_cnpj s = true ↔
        checkDigitCycle ((s.filter isAsciiDigit).take 12) =
          digitVal ((s.filter isAsciiDigit).getD 12 ' ') ∧
        checkDigitCycle ((s.filter isAsciiDigit).take 13) =
          digitVal ((s.filter isAsciiDigit).getD 13 ' ')))
  ∧ CnpjValidator (.vstr "62173620000180".toList) = true
  ∧ CnpjValidator (.vstr "62173620000181".toList) = false
  ∧ CnpjValidator (.vstr "".toList) = false := by
  refine ⟨fun p h => CnpjValidator_falsy h, ?_, ?_, by decide, by decide, by decide⟩
  · intro s hne
    cases hv : validate_cnpj s with
    | false => rfl
    | true => exact absurd ((validate_cnpj_iff s).mp hv).1 hne
  · intro s h14
    rw [validate_cnpj_iff]
    tauto

/-- Witness for C3 at concrete inputs. -/
theorem C3_taxid14_witness :
    CnpjValidator (PyVal.vbool false) = false
  ∧ validate_cnpj ("123".toList) = false
  ∧ validate_cnpj ("62173620000180".toList) = true := by
  refine ⟨C3_taxid14.1 _ (by decide), C3_taxid14.2.1 _ (by decide), ?_⟩
  exact (C3_taxid14.2.2.1 _ (by decide)).mpr (by decide)

/-- Claim C2: for every cleaner configuration and input, `execute` first
normalises with the normaliser's input transform and returns the
normalised text when the validator approves it; it raises the configured
exception carrying exactly the preconfigured message iff the validator
rejects it, and no error value other than that message is ever raised;
the spec's CPF cleaner examples hold (its checksum is the spec-modelled
`validate_cpf`). -/
theorem C2_cleaner :
    (∀ (v : Str → Bool) (nv : NormVariant) (msg : Str) (x : PyVal),
      (v (nv.inp x) = true →
        (Cleaner.mk v nv msg).execute x = .ok (nv.inp x))
      ∧ ((Cleaner.mk v nv msg).execute x = .error msg ↔ v (nv.inp x) = false)
      ∧ (∀ e, (Cleaner.mk v nv msg).execute x = .error e → e = msg))
  ∧ clean_cpf.execute (.vstr ("000.001.281-55".toList)) = .ok ("00000128155".toList)
  ∧ clean_cpf.execute (.vstr ("000001281555".toList)) = .error ("xyz".toList)
  ∧ clean_cpf.execute (.vstr ("00000128156".toList)) = .error ("xyz".toList) := by
  refine ⟨?_, by rfl, by rfl, by rfl⟩
  intro v nv msg x
  exact ⟨fun h => Cleaner_execute_ok h, Cleaner_execute_error_iff _ _,
    fun e he => Cleaner_execute_msg he⟩

/-- Witness for C2 at concrete inputs. -/
theorem C2_cleaner_witness :
    (Cleaner.mk NumericValidator NormVariant.numeric ("xyz".toList)).execute
        (.vstr ("1a2b3".toList)) = .ok ("123".toList)
  ∧ (Cleaner.mk PassportValidator NormVariant.passport ("xyz".toList)).execute
        (.vstr ("A1".toList)) = .error ("xyz".toList) := by
  constructor
  · exact (C2_cleaner.1 NumericValidator NormVariant.numeric ("xyz".toList)
      (.vstr ("1a2b3".toList))).1 (by decide)
  · exact (C2_cleaner.1 PassportValidator NormVariant.passport ("xyz".toList)
      (.vstr ("A1".toList))).2.1.mpr (by decide)

/-- Claim C4: for every fixed-length display variant and every input, if
the storage-normalised string's length differs from the variant's
expected length(s), `format_for_display` returns the storage-normalised
string itself, unchanged. -/
theorem C4_display_noop :
    ∀ v : NormVariant, expectedLens v ≠ [] → ∀ x : PyVal,
      (v.inp x).length ∉ expectedLens v → v.outp x = v.inp x :=
  fun v hv x h => outp_noop v hv x h

/-- Witness for C4 at a concrete input. -/
theorem C4_display_noop_witness :
    NormVariant.cpf.outp (.vstr ("123".toList)) =
      NormVariant.cpf.inp (.vstr ("123".toList)) :=
  C4_display_noop NormVariant.cpf (by decide) _ (by decide)

/-- Claim C5 counterexample: the passport normaliser's storage transform
is NOT idempotent, and its display round trip fails even at the expected
filtered length 8.  Python's full case mapping uppercases `ǰ` (U+01F0,
alphanumeric) to `J` followed by the combining caron U+030C, which is not
alphanumeric, so a second normalisation pass removes it. -/
theorem C5_counterexample :
    NormVariant.passport.inp (.vstr (NormVariant.passport.inp
        (.vstr ['ǰ']))) ≠ NormVariant.passport.inp (.vstr ['ǰ'])
  ∧ (NormVariant.passport.inp (.vstr ("AB123ǰ4".toList))).length ∈
      expectedLens NormVariant.passport
  ∧ NormVariant.passport.outp (.vstr (NormVariant.passport.inp
        (.vstr (NormVariant.passport.outp (.vstr ("AB123ǰ4".toList)))))) ≠
      NormVariant.passport.outp (.vstr ("AB123ǰ4".toList)) := by
  refine ⟨by decide, by decide, by decide⟩

/-- Claim C5 (amended): the storage transform is idempotent for every
built-in normaliser variant other than the passport one, for every
input (and for the date normaliser, whose storage transform is the
identity); the passport storage transform is idempotent for inputs
whose characters lie below U+0100 but not in general, because Python's
full case mapping can uppercase an alphanumeric character to a sequence
containing a non-alphanumeric combining mark.  The display round trip
`format(normalise(format(x))) = format(x)` holds at matching filtered
length for every fixed-length format other than passport, and for
passport under the same below-U+0100 restriction. -/
theorem C5_idem_roundtrip :
    (∀ (v : NormVariant) (x : PyVal), v ≠ .passport →
      v.inp (.vstr (v.inp x)) = v.inp x)
  ∧ (∀ x : PyVal, DateNormaliser.inp (DateNormaliser.inp x) = DateNormaliser.inp x)
  ∧ (∀ x : PyVal, (∀ c ∈ pyStr x, c.toNat < 256) →
      NormVariant.passport.inp (.vstr (NormVariant.passport.inp x)) =
        NormVariant.passport.inp x)
  ∧ (∀ (v : NormVariant) (x : PyVal), v ≠ .passport →
      (v.inp x).length ∈ expectedLens v →
      v.outp (.vstr (v.inp (.vstr (v.outp x)))) = v.outp x)
  ∧ (∀ x : PyVal, (∀ c ∈ pyStr x, c.toNat < 256) →
      (NormVariant.passport.inp x).length ∈ expectedLens NormVariant.passport →
      NormVariant.passport.outp (.vstr (NormVariant.passport.inp
        (.vstr (NormVariant.passport.outp x)))) =
          NormVariant.passport.outp x) :=
  ⟨fun v x hv => inp_idem_pv v hv x, fun _ => rfl,
    fun x hx => passport_inp_idem_pv x hx,
    fun v x hv h => display_roundtrip v hv x h,
    fun x hx h => passport_display_roundtrip x hx h⟩

/-- Witness for C5 at concrete inputs. -/
theorem C5_idem_roundtrip_witness :
    NormVariant.numeric.inp (.vstr (NormVariant.numeric.inp
        (.vstr (" 1a2 ".toList)))) = NormVariant.numeric.inp (.vstr (" 1a2 ".toList))
  ∧ NormVariant.passport.inp (.vstr (NormVariant.passport.inp
        (.vstr ("aa-12".toList)))) = NormVariant.passport.inp (.vstr ("aa-12".toList))
  ∧ NormVariant.cpf.outp (.vstr (NormVariant.cpf.inp
        (.vstr (NormVariant.cpf.outp (.vstr ("70600399109".toList)))))) =
      NormVariant.cpf.outp (.vstr ("70600399109".toList))
  ∧ NormVariant.passport.outp (.vstr (NormVariant.passport.inp
        (.vstr (NormVariant.passport.outp (.vstr ("aa123456".toList)))))) =
      NormVariant.passport.outp (.vstr ("aa123456".toList)) := by
  refine ⟨?_, ?_, ?_, ?_⟩
  · exact C5_idem_roundtrip.1 NormVariant.numeric _ (by decide)
  · exact C5_idem_roundtrip.2.2.1 _ (by decide)
  · exact C5_idem_roundtrip.2.2.2.1 NormVariant.cpf _ (by decide) (by decide)
  · exact C5_idem_roundtrip.2.2.2.2 _ (by decide) (by decide)

/-- Claim C6 counterexample: the character filter returns null input
unchanged (null, not the empty string), and Python's `str.isalpha` is
Unicode-aware, so a non-ASCII letter such as `é` (U+00E9) is NOT removed
by the is-letter filter, contradicting "returns the empty string for
absent input" and "every character outside those ASCII classes is
removed". -/
theorem C6_counterexample :
    _remove_other_chars pyIsDigit PyVal.vnone = PyVal.vnone
  ∧ PyVal.vnone ≠ PyVal.vstr []
  ∧ _remove_other_chars pyIsAlpha (PyVal.vstr ['é']) = PyVal.vstr ['é']
  ∧ pyIsAlpha 'é' = true
  ∧ 127 < 'é'.toNat := by
  refine ⟨by decide, by decide, by decide, by decide, by decide⟩

/-- Claim C6 (amended): for truthy string input the character filter
returns exactly the characters satisfying the predicate, in original
order, and is idempotent; falsy (null/empty/false) input is returned
unchanged — so null input yields null, and the empty string yields the
empty string; on the ASCII range the three standing predicates accept
exactly the ASCII digits, the ASCII letters, and their union, but being
Python's Unicode-aware `str.isdigit`/`str.isalpha`/`str.isalnum` they
also accept some non-ASCII characters, which are therefore kept. -/
theorem C6_charfilter :
    (∀ (p : Char → Bool) (s : Str),
      _remove_other_chars p (.vstr s) = .vstr (s.filter p))
  ∧ (∀ (p : Char → Bool) (v : PyVal), v.truthy = false →
      _remove_other_chars p v = v)
  ∧ (∀ (p : Char → Bool) (s : Str),
      _remove_other_chars p (_remove_other_chars p (.vstr s)) =
        _remove_other_chars p (.vstr s))
  ∧ (∀ c : Char, c.toNat ≤ 127 →
      (pyIsDigit c = (48 ≤ c.toNat && c.toNat ≤ 57))
      ∧ (pyIsAlpha c =
          ((65 ≤ c.toNat && c.toNat ≤ 90) || (97 ≤ c.toNat && c.toNat ≤ 122)))
      ∧ (pyIsAlnum c = (pyIsAlpha c || pyIsDigit c))) := by
  have hstr : ∀ (p : Char → Bool) (s : Str),
      _remove_other_chars p (.vstr s) = .vstr (s.filter p) := by
    intro p s
    cases s with
    | nil => rfl
    | cons c t => rfl
  refine ⟨hstr, ?_, ?_, ?_⟩
  · intro p v h
    rw [_remove_other_chars, h]
    rfl
  · intro p s
    rw [hstr, hstr, filter_idem]
  · intro c hc
    refine ⟨?_, ?_, ?_⟩
    · rw [Bool.eq_iff_iff]
      simp only [pyIsDigit, Bool.or_eq_true, Bool.and_eq_true, beq_iff_eq,
        decide_eq_true_eq]
      omega
    · rw [Bool.eq_iff_iff]
      simp only [pyIsAlpha, Bool.or_eq_true, Bool.and_eq_true, beq_iff_eq,
        decide_eq_true_eq]
      omega
    · rw [Bool.eq_iff_iff]
      simp only [pyIsAlnum, pyIsAlpha, pyIsDigit, Bool.or_eq_true,
        Bool.and_eq_true, beq_iff_eq, decide_eq_true_eq]
      omega

/-- Witness for C6 at concrete inputs. -/
theorem C6_charfilter_witness :
    _remove_other_chars pyIsDigit PyVal.vnone = PyVal.vnone
  ∧ pyIsDigit 'a' = ((48 ≤ 'a'.toNat) && ('a'.toNat ≤ 57)) := by
  constructor
  · exact C6_charfilter.2.1 pyIsDigit PyVal.vnone (by decide)
  · exact (C6_charfilter.2.2.2 'a' (by decide)).1

/-- Claim C7 counterexample: the default `RegexValidator` pattern is
`.*` matched with `re.fullmatch`, and Python's `.` does not match a
newline, so the default pattern rejects the one-character string made of
a newline — it does not accept every string. -/
theorem C7_counterexample :
    RegexValidator defaultRegex [Char.ofNat 10] = false := by
  decide

/-- Claim C7 (amended): every regex validator requires the ENTIRE input
to match its pattern: Phone accepts exactly 10 or 11 ASCII digits,
Passport exactly 2 uppercase ASCII letters followed by 6 digits, IDCard
exactly 9 digits, PostCode exactly 8 digits, Numeric/Alpha/Alnum exactly
the all-digit / all-letter / all-alphanumeric strings (empty included);
the default pattern `.*` accepts exactly the strings that contain no
newline (the empty string included). -/
theorem C7_regex :
    ∀ s : Str,
    (PhoneValidator s = true ↔
      (s.length = 10 ∨ s.length = 11) ∧ ∀ c ∈ s, '0' ≤ c ∧ c ≤ '9')
  ∧ (PassportValidator s = true ↔
      s.length = 8 ∧ (∀ c ∈ s.take 2, 'A' ≤ c ∧ c ≤ 'Z') ∧
        (∀ c ∈ s.drop 2, '0' ≤ c ∧ c ≤ '9'))
  ∧ (IDCardValidator s = true ↔ s.length = 9 ∧ ∀ c ∈ s, '0' ≤ c ∧ c ≤ '9')
  ∧ (PostCodeValidator s = true ↔ s.length = 8 ∧ ∀ c ∈ s, '0' ≤ c ∧ c ≤ '9')
  ∧ (NumericValidator s = true ↔ ∀ c ∈ s, '0' ≤ c ∧ c ≤ '9')
  ∧ (AlphaValidator s = true ↔
      ∀ c ∈ s, ('a' ≤ c ∧ c ≤ 'z') ∨ ('A' ≤ c ∧ c ≤ 'Z'))
  ∧ (AlnumValidator s = true ↔
      ∀ c ∈ s, ('a' ≤ c ∧ c ≤ 'z') ∨ ('A' ≤ c ∧ c ≤ 'Z') ∨ ('0' ≤ c ∧ c ≤ '9'))
  ∧ (RegexValidator defaultRegex s = true ↔ Char.ofNat 10 ∉ s) :=
  fun s =>
    ⟨PhoneValidator_iff s, PassportValidator_iff s, IDCardValidator_iff s,
      PostCodeValidator_iff s, NumericValidator_iff s, AlphaValidator_iff s,
      AlnumValidator_iff s, defaultRegex_iff s⟩

/-- Witness for C7 at concrete inputs. -/
theorem C7_regex_witness :
    PhoneValidator ("1234567890".toList) = true
  ∧ PassportValidator ("AA123456".toList) = true
  ∧ RegexValidator defaultRegex ("hello".toList) = true := by
  refine ⟨?_, ?_, ?_⟩
  · exact (C7_regex ("1234567890".toList)).1.mpr (by decide)
  · exact (C7_regex ("AA123456".toList)).2.1.mpr (by decide)
  · exact (C7_regex ("hello".toList)).2.2.2.2.2.2.2.mpr (by decide)

/-- Claim C8 counterexample: the claim says every absent (falsy) input to
ANY normaliser behaves exactly as the empty string, but `DateNormaliser`
inherits the pass-through `inp` of `NullNormaliser`: it maps `None` to
`None`, not to the empty string. -/
theorem C8_counterexample :
    DateNormaliser.inp PyVal.vnone = PyVal.vnone
  ∧ DateNormaliser.inp (PyVal.vstr []) = PyVal.vstr []
  ∧ PyVal.vnone ≠ PyVal.vstr [] := by
  refine ⟨rfl, rfl, by decide⟩

/-- Claim C8 (amended): normaliser operations and the character filter
are total (they are plain functions here, never raising); for every
normaliser of the stripping base catalog, falsy/absent input (None,
False, the empty string) behaves exactly as the empty string under both
the storage and display operations; the `DateNormaliser`, however,
passes its input through unchanged (`inp` is the identity and `outp`
returns any non-date unchanged); the character filter returns falsy
input unchanged; and the checksum validators return false on falsy input
before any length or checksum check. -/
theorem C8_safety :
    (∀ (v : NormVariant) (x : PyVal), x.truthy = false →
      v.inp x = v.inp (.vstr []) ∧ v.outp x = v.outp (.vstr []))
  ∧ (∀ x : PyVal, DateNormaliser.inp x = x)
  ∧ (∀ (fmts : List Str) (strf : Int → Str → Str) (x : PyVal),
      isDate x = false → DateNormaliser.outp fmts strf x = x)
  ∧ (∀ (p : Char → Bool) (x : PyVal), x.truthy = false →
      _remove_other_chars p x = x)
  ∧ (∀ p : PyVal, p.truthy = false →
      CpfValidator p = false ∧ CnpjValidator p = false) := by
  refine ⟨?_, fun x => rfl, ?_, ?_, ?_⟩
  · intro v x h
    constructor
    · rw [NormVariant.inp, h]
      rfl
    · rw [NormVariant.outp, h]
      rfl
  · intro fmts strf x h
    cases x with
    | vdate d => exact absurd h (by simp [isDate])
    | vstr s => exact if_neg (by rintro ⟨-, hd⟩; simp [isDate] at hd)
    | vnone => exact if_neg (by rintro ⟨-, hd⟩; simp [isDate] at hd)
    | vbool b => exact if_neg (by rintro ⟨-, hd⟩; simp [isDate] at hd)
    | vint n => exact if_neg (by rintro ⟨-, hd⟩; simp [isDate] at hd)
  · intro p x h
    rw [_remove_other_chars, h]
    rfl
  · intro p h
    exact ⟨CpfValidator_falsy h, CnpjValidator_falsy h⟩

/-- Witness for C8 at concrete inputs. -/
theorem C8_safety_witness :
    NormVariant.numeric.inp PyVal.vnone = NormVariant.numeric.inp (.vstr [])
  ∧ DateNormaliser.outp ["x".toList] (fun _ f => f) (PyVal.vstr ("a".toList)) =
      PyVal.vstr ("a".toList)
  ∧ _remove_other_chars pyIsDigit (PyVal.vbool false) = PyVal.vbool false
  ∧ CpfValidator (PyVal.vstr []) = false := by
  refine ⟨?_, ?_, ?_, ?_⟩
  · exact (C8_safety.1 NormVariant.numeric PyVal.vnone (by decide)).1
  · exact C8_safety.2.2.1 ["x".toList] (fun _ f => f) _ (by decide)
  · exact C8_safety.2.2.2.1 pyIsDigit (PyVal.vbool false) (by decide)
  · exact (C8_safety.2.2.2.2 (PyVal.vstr []) (by decide)).1

/-- Claim C9: the claim says `DobValidator` returns a boolean on every
call, false when the date is today or later; in the source the `else`
branch is the bare expression `False` with no `return`, so the call
returns Python `None` on that path.  The validator does return true
exactly when the date is strictly before today. -/
theorem C9_dob :
    (∀ today d : Int, d < today → DobValidator today d = PyVal.vbool true)
  ∧ (∀ today d : Int, today ≤ d → DobValidator today d = PyVal.vnone)
  ∧ DobValidator 738000 738000 = PyVal.vnone
  ∧ PyVal.vnone ≠ PyVal.vbool false := by
  refine ⟨?_, ?_, by decide, by decide⟩
  · intro today d h
    rw [DobValidator, if_pos h]
  · intro today d h
    rw [DobValidator, if_neg (by omega)]

/-- Witness for C9 at concrete inputs. -/
theorem C9_dob_witness :
    DobValidator 10 3 = PyVal.vbool true ∧ DobValidator 10 12 = PyVal.vnone := by
  constructor
  · exact C9_dob.1 10 3 (by decide)
  · exact C9_dob.2.1 10 12 (by decide)

/-- Claim C10: every normaliser storage and display operation coerces a
truthy non-string input with the standard string conversion before
filtering or trimming — e.g. the integer 12345 normalises to the string
"12345" — so the cleaner also accepts non-string input. -/
theorem C10_coercion :
    (∀ (v : NormVariant) (x : PyVal), x.truthy = true →
      v.inp x = v._inp (pyStr x))
  ∧ (∀ (v : NormVariant) (x : PyVal), x.truthy = true →
      v.outp x = v._outp (v._inp (pyStr x)))
  ∧ NormVariant.numeric.inp (.vint 12345) = "12345".toList
  ∧ clean_numeric.execute (.vint 12345) = .ok ("12345".toList)
  ∧ clean_numeric.ft (.vint 12345) = "12345".toList := by
  refine ⟨?_, ?_, by rfl, by rfl, by rfl⟩
  · intro v x h
    rw [NormVariant.inp, h]
    rfl
  · intro v x h
    rw [NormVariant.outp, h, inp_vstr]
    rfl

/-- Witness for C10 at a concrete input. -/
theorem C10_coercion_witness :
    NormVariant.numeric.inp (PyVal.vint 42) =
      NormVariant.numeric._inp (pyStr (PyVal.vint 42))
  ∧ NormVariant.cpf.outp (PyVal.vint 42) =
      NormVariant.cpf._outp (NormVariant.cpf._inp (pyStr (PyVal.vint 42))) := by
  constructor
  · exact C10_coercion.1 NormVariant.numeric (PyVal.vint 42) (by decide)
  · exact C10_coercion.2.1 NormVariant.cpf (PyVal.vint 42) (by decide)

end Validators
